import Mathlib

/-!
Verification of the Pilosa URI addressing core (common.go, package pilosa).

The descriptor type URI has three fields: scheme, host, port (uint16 in Go,
modelled as Nat; narrowing conversions are written modulo 2 ^ 16 where the
source performs a uint16 conversion).  The parser, validators, renderers,
comparator and codecs below are shallow embeddings of the Go functions,
translated clause by clause from the source.
-/

namespace Pilosa

/-! ## Character classes of the three regular expressions

schemeRegexp is the anchored class run [+a-z]+ .
hostRegexp is [0-9a-z.-]+ or a bracketed run of [:0-9a-fA-F]+ .
addressRegexp is the anchored sequence of three optional groups
(scheme followed by the literal colon-slash-slash, host, colon port). -/

/-- Characters admitted by the scheme class [+a-z]. -/
def isSchemeChar (c : Char) : Bool :=
  c = '+' || ('a' ≤ c && c ≤ 'z')

/-- Decimal digit [0-9]. -/
def isDigitChar (c : Char) : Bool :=
  '0' ≤ c && c ≤ '9'

/-- Characters admitted by the bare host class [0-9a-z.-]. -/
def isBareHostChar (c : Char) : Bool :=
  isDigitChar c || ('a' ≤ c && c ≤ 'z') || c = '.' || c = '-'

/-- Characters admitted inside a bracketed host literal [:0-9a-fA-F]. -/
def isBracketInnerChar (c : Char) : Bool :=
  c = ':' || isDigitChar c || ('a' ≤ c && c ≤ 'f') || ('A' ≤ c && c ≤ 'F')

/-! ## The address grammar

addressRegexp is anchored on both sides, so FindStringSubmatch succeeds
exactly when the whole string decomposes as optional scheme group, optional
host group, optional port group.  Because neither the bare host class nor
the digit class contains a colon or a slash, and the bracket interior class
contains no slash and no closing bracket, the decomposition of a matching
string is unique, so the greedy leftmost match of the Go engine coincides
with the deterministic matcher below: take the maximal scheme-class run and
commit to the scheme group only when the literal colon-slash-slash follows
a non-empty run; then a bracketed host is forced by an opening bracket and
ends at the first closing bracket, a bare host is the maximal run of its
class; the rest must be empty or a colon followed by one or more digits. -/

/-- The three capture groups of addressRegexp (groups 2, 3 and 5 of the Go
regexp); an absent group is the empty list, as FindStringSubmatch reports
the empty string for a group that did not participate in the match. -/
structure AddressMatch where
  scheme : List Char
  host : List Char
  port : List Char
deriving DecidableEq, Repr

/-- The trailing optional port group: end of string, or a colon followed by
a non-empty digit run (group 5 captures the digits). -/
def matchPort (rest : List Char) : Option (List Char) :=
  match rest with
  | [] => some []
  | ':' :: ds =>
      if ds.isEmpty then none
      else if ds.all isDigitChar then some ds else none
  | _ => none

/-- The optional host group followed by the optional port group.  An opening
bracket forces the bracketed alternative; otherwise the host capture is the
maximal bare-class run (possibly empty, the group then being absent). -/
def matchHostPort (rest : List Char) : Option (List Char × List Char) :=
  match rest with
  | '[' :: t =>
      let inner := t.takeWhile isBracketInnerChar
      if inner.isEmpty then none
      else
        match t.drop inner.length with
        | ']' :: r2 => (matchPort r2).map (fun p => ('[' :: (inner ++ [']']), p))
        | _ => none
  | _ =>
      let h := rest.takeWhile isBareHostChar
      (matchPort (rest.drop h.length)).map (fun p => (h, p))

/-- Whole-string match of addressRegexp: the optional scheme group is taken
exactly when a non-empty scheme-class run is followed by the literal
colon-slash-slash; the remainder must form host and port groups. -/
def matchAddress (s : List Char) : Option AddressMatch :=
  let sch := s.takeWhile isSchemeChar
  let rest := s.drop sch.length
  match rest with
  | ':' :: '/' :: '/' :: t =>
      if sch.isEmpty then (matchHostPort s).map (fun hp => ⟨[], hp.1, hp.2⟩)
      else (matchHostPort t).map (fun hp => ⟨sch, hp.1, hp.2⟩)
  | _ => (matchHostPort s).map (fun hp => ⟨[], hp.1, hp.2⟩)

/-! ## The descriptor and its operations -/

/-- The URI descriptor.  In Go the port field is a uint16; here it is a Nat
and the uint16 conversions of the source appear as reductions modulo
2 ^ 16 = 65536. -/
structure URI where
  scheme : String
  host : String
  port : Nat
deriving DecidableEq, Repr

/-- DefaultURI: scheme http, host localhost, port 10101. -/
def defaultURI : URI :=
  { scheme := "http", host := "localhost", port := 10101 }

/-- Value of a decimal digit run, most significant first. -/
def digitsToNat (ds : List Char) : Nat :=
  ds.foldl (fun a c => a * 10 + (c.toNat - 48)) 0

/-- Largest value of the Go int type (64-bit). -/
def maxInt : Nat := 9223372036854775807

/-- strconv.Atoi restricted to the strings the address grammar can supply
(the captured port group is a non-empty digit run, so no sign handling is
needed): the digit run converts to its value, failing exactly when the
value overflows the 64-bit int type (ErrRange). -/
def atoi (ds : List Char) : Option Nat :=
  if ds.isEmpty then none
  else if ds.all isDigitChar then
    if digitsToNat ds ≤ maxInt then some (digitsToNat ds) else none
  else none

/-- parseAddress: match the address regexp (failure is the invalid-address
error), substitute the default for each absent group, convert the port
digits with Atoi (failure is the port-conversion error), and narrow the
port to uint16. -/
def parseAddress (address : String) : Except String URI :=
  match matchAddress address.data with
  | none => Except.error "invalid address"
  | some m =>
      let scheme := if m.scheme.isEmpty then "http" else String.mk m.scheme
      let host := if m.host.isEmpty then "localhost" else String.mk m.host
      match (if m.port.isEmpty then some 10101 else atoi m.port) with
      | none => Except.error "converting port string to int"
      | some p => Except.ok { scheme := scheme, host := host, port := p % 65536 }

/-- NewURIFromAddress delegates to parseAddress. -/
def newURIFromAddress (address : String) : Except String URI :=
  parseAddress address

/-- schemeRegexp as a whole-string test: one or more scheme-class chars. -/
def schemeMatches (s : String) : Bool :=
  !s.data.isEmpty && s.data.all isSchemeChar

/-- The bracketed alternative of hostRegexp as a whole-string test: an
opening bracket, a non-empty bracket-interior run, a closing bracket. -/
def bracketMatches (l : List Char) : Bool :=
  match l with
  | a :: t =>
      a = '[' && !t.dropLast.isEmpty && t.dropLast.all isBracketInnerChar &&
        t.getLast? == some ']'
  | [] => false

/-- hostRegexp as a whole-string test: a non-empty bare-class run, or the
bracketed alternative. -/
def hostMatches (s : String) : Bool :=
  (!s.data.isEmpty && s.data.all isBareHostChar) || bracketMatches s.data

/-- SetScheme: validate against schemeRegexp, then overwrite the field; on
mismatch return the invalid-scheme error and leave the receiver unchanged.
The Go method mutates its receiver and returns error; here the pair holds
the receiver after the call and the returned error. -/
def URI.setScheme (u : URI) (scheme : String) : URI × Option String :=
  if schemeMatches scheme then ({ u with scheme := scheme }, none)
  else (u, some "invalid scheme")

/-- SetHost: validate against hostRegexp, then overwrite the field; on
mismatch return the invalid-host error and leave the receiver unchanged. -/
def URI.setHost (u : URI) (host : String) : URI × Option String :=
  if hostMatches host then ({ u with host := host }, none)
  else (u, some "invalid host")

/-- SetPort: unconditional overwrite (the uint16 type is the only bound). -/
def URI.setPort (u : URI) (port : Nat) : URI :=
  { u with port := port % 65536 }

/-- HostPort on an optional receiver: the Go method checks its pointer
receiver for nil and returns the empty string, else host colon port. -/
def hostPort (u : Option URI) : String :=
  match u with
  | none => ""
  | some v => v.host ++ ":" ++ Nat.repr v.port

/-- Normalize: find the first plus sign in the scheme with strings.Index,
cut the scheme there when one exists, and render scheme, separator, host,
colon, port. -/
def URI.normalize (u : URI) : String :=
  let i := u.scheme.data.findIdx (fun c => c = '+')
  let scheme :=
    if i < u.scheme.data.length then String.mk (u.scheme.data.take i)
    else u.scheme
  scheme ++ "://" ++ u.host ++ ":" ++ Nat.repr u.port

/-- The String method: render the full scheme, separator, host, colon,
port. -/
def URI.render (u : URI) : String :=
  u.scheme ++ "://" ++ u.host ++ ":" ++ Nat.repr u.port

/-- Equals: false against a nil pointer, else Go struct equality, which is
field-for-field equality. -/
def URI.equals (u : URI) (other : Option URI) : Bool :=
  match other with
  | none => false
  | some v => decide (u = v)

/-! ## The wire envelope codec -/

/-- The internal.URI wire envelope: scheme and host strings and a uint32
port, modelled as a Nat below 2 ^ 32 on the Go side. -/
structure InternalURI where
  Scheme : String
  Host : String
  Port : Nat
deriving DecidableEq, Repr

/-- encodeURI: copy the fields, widening the uint16 port to uint32 (the
widening is value-preserving). -/
def encodeURI (u : URI) : InternalURI :=
  { Scheme := u.scheme, Host := u.host, Port := u.port }

/-- decodeURI: a nil envelope decodes to the zero-valued descriptor; a
present one copies the fields, narrowing the uint32 port to uint16. -/
def decodeURI (i : Option InternalURI) : URI :=
  match i with
  | none => { scheme := "", host := "", port := 0 }
  | some v => { scheme := v.Scheme, host := v.Host, port := v.Port % 65536 }

/-- encodeURIs: a sequence of length zero encodes to the nil slice (none);
otherwise each element is encoded in order, each envelope pointer being
non-nil. -/
def encodeURIs (a : List URI) : Option (List (Option InternalURI)) :=
  if a.length = 0 then none
  else some (a.map (fun u => some (encodeURI u)))

/-- decodeURIs: a wire collection of length zero (nil or empty) decodes to
the nil sequence (none); otherwise each envelope is decoded in order. -/
def decodeURIs (a : Option (List (Option InternalURI))) : Option (List URI) :=
  match a with
  | none => none
  | some l => if l.length = 0 then none else some (l.map (fun i => decodeURI i))

/-! ## The JSON codec

MarshalJSON serialises through a transfer struct whose three fields carry
the omitempty option: a field holding its zero value is left out of the
encoded object.  UnmarshalJSON deserialises into the same transfer struct,
a missing key leaving the zero value in place.  The object is modelled at
the key level: an Option field is none exactly when the key is absent from
the serialised object. -/

/-- The JSON object form: each key present or absent. -/
structure JSONURI where
  scheme : Option String
  host : Option String
  port : Option Nat
deriving DecidableEq, Repr

/-- MarshalJSON: copy each field into the transfer struct; omitempty drops
a key holding the zero value of its type. -/
def marshalJSON (u : URI) : JSONURI :=
  { scheme := if u.scheme = "" then none else some u.scheme
    host := if u.host = "" then none else some u.host
    port := if u.port = 0 then none else some u.port }

/-- UnmarshalJSON: read each key of the object into the transfer struct (a
missing key leaves the zero value) and copy the struct into the receiver.
No grammar validation is applied.  On the Go side the port key is decoded
into a uint16 field, so its value is below 2 ^ 16. -/
def unmarshalJSON (j : JSONURI) : URI :=
  { scheme := j.scheme.getD ""
    host := j.host.getD ""
    port := j.port.getD 0 }

/-! ## Theorems -/

/-- Claim C6: decoding an absent (nil) wire envelope yields the zero-valued
descriptor (empty scheme, empty host, port zero), which differs from the
default-valued descriptor produced by parsing the empty string. -/
theorem c6_decode_nil :
    decodeURI none = { scheme := "", host := "", port := 0 } ∧
    decodeURI none ≠ defaultURI ∧
    parseAddress "" = Except.ok defaultURI ∧
    defaultURI = { scheme := "http", host := "localhost", port := 10101 } := by
  refine ⟨rfl, by decide, rfl, rfl⟩

/-- Claim C10: the host-port renderer is total over optional descriptors: a
nil descriptor renders as the empty string, and a present descriptor
renders as host, colon, port. -/
theorem c10_hostPort :
    hostPort none = "" ∧
    (∀ u : URI, hostPort (some u) = u.host ++ ":" ++ Nat.repr u.port) ∧
    hostPort (some defaultURI) = "localhost:10101" := by
  exact ⟨rfl, fun u => rfl, rfl⟩

/-- Claim C7: Equals holds exactly when all three fields agree, with no
normalization; comparison against nil is always false; equality is
reflexive and symmetric; and descriptors differing only in a scheme suffix
are not equal. -/
theorem c7_equals :
    (∀ u v : URI, u.equals (some v) = true ↔
      (u.scheme = v.scheme ∧ u.host = v.host ∧ u.port = v.port)) ∧
    (∀ u : URI, u.equals none = false) ∧
    (∀ u : URI, u.equals (some u) = true) ∧
    (∀ u v : URI, u.equals (some v) = v.equals (some u)) ∧
    URI.equals { scheme := "http", host := "node1", port := 9999 }
      (some { scheme := "http+tls", host := "node1", port := 9999 }) = false := by
  refine ⟨?_, fun u => rfl, ?_, ?_, by decide⟩
  · intro u v
    cases u
    cases v
    simp [URI.equals, URI.mk.injEq]
  · intro u
    simp [URI.equals]
  · intro u v
    simp [URI.equals]
    exact eq_comm

/-- Claim C8: the batch codec is element-wise and order-preserving; an
empty input encodes to the nil collection, and a nil or empty wire
collection decodes to the nil sequence. -/
theorem c8_batch :
    encodeURIs [] = none ∧
    (∀ a : List URI, a ≠ [] →
      encodeURIs a = some (a.map (fun u => some (encodeURI u)))) ∧
    decodeURIs none = none ∧
    decodeURIs (some []) = none ∧
    (∀ l : List (Option InternalURI), l ≠ [] →
      decodeURIs (some l) = some (l.map (fun i => decodeURI i))) := by
  refine ⟨rfl, ?_, rfl, rfl, ?_⟩
  · intro a ha
    simp [encodeURIs, List.length_eq_zero, ha]
  · intro l hl
    simp [decodeURIs, List.length_eq_zero, hl]

/-- Witness for C8 at a one-element sequence. -/
theorem c8_batch_witness :
    encodeURIs [defaultURI] = some [some (encodeURI defaultURI)] ∧
    decodeURIs (some [some (encodeURI defaultURI)]) =
      some [decodeURI (some (encodeURI defaultURI))] :=
  ⟨c8_batch.2.1 [defaultURI] (by decide),
   c8_batch.2.2.2.2 [some (encodeURI defaultURI)] (by decide)⟩

/-- Claim C2: for every descriptor (the port being a uint16 value), the
wire-envelope round trip and the JSON round trip both reproduce the
descriptor field for field. -/
theorem c2_roundtrip (u : URI) (h : u.port < 65536) :
    decodeURI (some (encodeURI u)) = u ∧ unmarshalJSON (marshalJSON u) = u := by
  obtain ⟨s, ho, p⟩ := u
  constructor
  · simp only [decodeURI, encodeURI, URI.mk.injEq]
    simpa using Nat.mod_eq_of_lt h
  · simp only [marshalJSON, unmarshalJSON, URI.mk.injEq]
    refine ⟨?_, ?_, ?_⟩
    · rcases eq_or_ne s "" with rfl | hs
      · simp
      · simp [hs]
    · rcases eq_or_ne ho "" with rfl | hh
      · simp
      · simp [hh]
    · rcases eq_or_ne p 0 with rfl | hp
      · simp
      · simp [hp]

/-- Witness for C2 at the default descriptor. -/
theorem c2_roundtrip_witness :
    decodeURI (some (encodeURI defaultURI)) = defaultURI ∧
    unmarshalJSON (marshalJSON defaultURI) = defaultURI :=
  c2_roundtrip defaultURI (by decide)

/-- The scheme test accepts exactly the non-empty runs of scheme-class
characters. -/
theorem schemeMatches_iff (s : String) :
    schemeMatches s = true ↔
      (s.data ≠ [] ∧ ∀ c ∈ s.data, isSchemeChar c = true) := by
  simp [schemeMatches, List.all_eq_true, List.isEmpty_iff]

/-- The bracketed host test accepts exactly the strings made of an opening
bracket, a non-empty interior run of bracket-class characters, and a
closing bracket. -/
theorem bracketMatches_iff (l : List Char) :
    bracketMatches l = true ↔
      ∃ inner, l = '[' :: (inner ++ [']']) ∧ inner ≠ [] ∧
        ∀ c ∈ inner, isBracketInnerChar c = true := by
  cases l with
  | nil => simp [bracketMatches]
  | cons a t =>
      simp only [bracketMatches, Bool.and_eq_true, decide_eq_true_eq,
        Bool.not_eq_true', List.isEmpty_eq_false_iff_exists_mem, beq_iff_eq,
        List.all_eq_true]
      constructor
      · rintro ⟨⟨⟨ha, hne⟩, hall⟩, hlast⟩
        have ht : t ≠ [] := by
          intro h0
          rw [h0] at hne
          rcases hne with ⟨c, hc⟩
          simp at hc
        refine ⟨t.dropLast, ?_, ?_, hall⟩
        · have hsplit := List.dropLast_append_getLast ht
          have hg : t.getLast ht = ']' := by
            have := List.getLast?_eq_getLast t ht
            rw [this] at hlast
            exact Option.some.injEq _ _ ▸ hlast
          rw [ha]
          conv_lhs => rw [← hsplit]
          rw [hg]
        · intro h0
          rw [h0] at hne
          rcases hne with ⟨c, hc⟩
          simp at hc
      · rintro ⟨inner, heq, hne, hall⟩
        have ha : a = '[' ∧ t = inner ++ [']'] := by
          have := heq
          simp only [List.cons.injEq] at this
          exact this
        refine ⟨⟨⟨ha.1, ?_⟩, ?_⟩, ?_⟩
        · rw [ha.2, List.dropLast_concat]
          rcases List.exists_mem_of_ne_nil inner hne with ⟨c, hc⟩
          exact ⟨c, hc⟩
        · rw [ha.2, List.dropLast_concat]
          exact hall
        · rw [ha.2, List.getLast?_concat]

/-- Claim C4: SetScheme succeeds exactly on a non-empty run of scheme-class
characters and SetHost exactly on a host-pattern string (bare run or
bracketed literal); on mismatch each setter returns its field-specific
error with every field of the receiver unchanged. -/
theorem c4_setters (u : URI) (s : String) :
    ((u.setScheme s).2 = none ↔
      (s.data ≠ [] ∧ ∀ c ∈ s.data, isSchemeChar c = true)) ∧
    ((u.setScheme s).2 ≠ none → u.setScheme s = (u, some "invalid scheme")) ∧
    ((u.setHost s).2 = none ↔
      ((s.data ≠ [] ∧ ∀ c ∈ s.data, isBareHostChar c = true) ∨
       ∃ inner, s.data = '[' :: (inner ++ [']']) ∧ inner ≠ [] ∧
         ∀ c ∈ inner, isBracketInnerChar c = true)) ∧
    ((u.setHost s).2 ≠ none → u.setHost s = (u, some "invalid host")) := by
  refine ⟨?_, ?_, ?_, ?_⟩
  · rw [← schemeMatches_iff]
    unfold URI.setScheme
    by_cases h : schemeMatches s = true <;> simp [h]
  · intro hne
    unfold URI.setScheme at hne ⊢
    by_cases h : schemeMatches s = true <;> simp [h] at hne ⊢
  · rw [show ((s.data ≠ [] ∧ ∀ c ∈ s.data, isBareHostChar c = true) ∨
        ∃ inner, s.data = '[' :: (inner ++ [']']) ∧ inner ≠ [] ∧
          ∀ c ∈ inner, isBracketInnerChar c = true) ↔ hostMatches s = true from ?_]
    · unfold URI.setHost
      by_cases h : hostMatches s = true <;> simp [h]
    · rw [hostMatches, Bool.or_eq_true, ← bracketMatches_iff]
      apply or_congr _ Iff.rfl
      simp [List.all_eq_true, List.isEmpty_iff]
  · intro hne
    unfold URI.setHost at hne ⊢
    by_cases h : hostMatches s = true <;> simp [h] at hne ⊢

/-- Witness for C4: a valid scheme is accepted, an invalid host is rejected
with the receiver unchanged. -/
theorem c4_setters_witness :
    (defaultURI.setScheme "https").2 = none ∧
    defaultURI.setHost "bad_host!!" = (defaultURI, some "invalid host") :=
  ⟨(c4_setters defaultURI "https").1.mpr ⟨by decide, by decide⟩,
   (c4_setters defaultURI "bad_host!!").2.2.2 (by decide)⟩

/-- The scheme slice of Normalize: strings.Index finds the first plus sign
and the slice keeps the characters before it, so the sliced scheme is the
longest plus-free run. -/
theorem stripPlus_eq (l : List Char) :
    (if l.findIdx (fun c => c = '+') < l.length then
      l.take (l.findIdx (fun c => c = '+'))
    else l) = l.takeWhile (fun c => c != '+') := by
  induction l with
  | nil => simp
  | cons a t ih =>
      by_cases h : a = '+'
      · subst h
        simp [List.findIdx_cons, List.takeWhile_cons]
      · have hd : decide (a = '+') = false := decide_eq_false h
        have hb : (a != '+') = true := bne_iff_ne.mpr h
        simp only [List.findIdx_cons, hd, cond_false, List.length_cons,
          Nat.add_lt_add_iff_right, List.take_succ_cons, List.takeWhile_cons,
          hb, if_true]
        rw [← apply_ite (List.cons a), ih]

/-- Claim C5: the dialing form (Normalize) renders the scheme with the
first plus sign and everything after it removed, while the display form
(the String method) renders the full scheme; the descriptor parsed from
the http+tls example renders accordingly in both forms. -/
theorem c5_renderers :
    (∀ u : URI, u.normalize =
      String.mk (u.scheme.data.takeWhile (fun c => c != '+')) ++ "://" ++
        u.host ++ ":" ++ Nat.repr u.port) ∧
    (∀ u : URI, u.render =
      u.scheme ++ "://" ++ u.host ++ ":" ++ Nat.repr u.port) ∧
    parseAddress "http+tls://node1:9999" =
      Except.ok { scheme := "http+tls", host := "node1", port := 9999 } ∧
    URI.normalize { scheme := "http+tls", host := "node1", port := 9999 } =
      "http://node1:9999" ∧
    URI.render { scheme := "http+tls", host := "node1", port := 9999 } =
      "http+tls://node1:9999" := by
  refine ⟨?_, fun u => rfl, rfl, rfl, rfl⟩
  intro u
  have h2 : (if u.scheme.data.findIdx (fun c => c = '+') <
        u.scheme.data.length then
      String.mk (u.scheme.data.take
        (u.scheme.data.findIdx (fun c => c = '+')))
    else u.scheme) =
      String.mk (u.scheme.data.takeWhile (fun c => c != '+')) := by
    rw [← stripPlus_eq u.scheme.data, apply_ite String.mk]
  simp only [URI.normalize]
  rw [h2]

/-- Claim C1: the seven equivalent address forms all parse to the default
descriptor, and in general any group absent from the grammar match is
replaced by its default value. -/
theorem c1_parse_defaults :
    (parseAddress "http://localhost:10101" = Except.ok defaultURI ∧
     parseAddress "http://localhost" = Except.ok defaultURI ∧
     parseAddress "http://:10101" = Except.ok defaultURI ∧
     parseAddress "localhost:10101" = Except.ok defaultURI ∧
     parseAddress "localhost" = Except.ok defaultURI ∧
     parseAddress ":10101" = Except.ok defaultURI ∧
     parseAddress "" = Except.ok defaultURI) ∧
    (∀ (s : String) (m : AddressMatch) (u : URI),
      matchAddress s.data = some m → parseAddress s = Except.ok u →
      (m.scheme = [] → u.scheme = "http") ∧
      (m.host = [] → u.host = "localhost") ∧
      (m.port = [] → u.port = 10101)) := by
  refine ⟨⟨rfl, rfl, rfl, rfl, rfl, rfl, rfl⟩, ?_⟩
  intro s m u hm hp
  simp only [parseAddress, hm] at hp
  split at hp
  · exact Except.noConfusion hp
  · rename_i p hq
    rw [Except.ok.injEq] at hp
    subst hp
    refine ⟨?_, ?_, ?_⟩
    · intro h0
      simp [h0]
    · intro h0
      simp [h0]
    · intro h0
      rw [h0] at hq
      simp at hq
      subst hq
      show 10101 % 65536 = 10101
      decide

/-- Witness for C1 at the empty address, whose match has all three groups
absent. -/
theorem c1_parse_defaults_witness :
    defaultURI.scheme = "http" ∧ defaultURI.host = "localhost" ∧
      defaultURI.port = 10101 := by
  have h := c1_parse_defaults.2 "" ⟨[], [], []⟩ defaultURI rfl rfl
  exact ⟨h.1 rfl, h.2.1 rfl, h.2.2 rfl⟩

/-- Counterexample for C3: the malformed-port example fails the whole
grammar (the port group admits only digits), so it produces the same
invalid-address error as a malformed-host input; the two failures are not
distinguishable. -/
theorem c3_counterexample :
    parseAddress "http://host:abc" = Except.error "invalid address" ∧
    parseAddress "bad_host!!" = Except.error "invalid address" ∧
    parseAddress "http://host:abc" = parseAddress "bad_host!!" :=
  ⟨rfl, rfl, rfl⟩

/-- Claim C3 (amended): parsing fails with the invalid-address error
exactly when the whole string fails the grammar; the distinct
port-conversion error arises exactly when the string matches the grammar
with a port group present whose digit run overflows the integer
conversion, as in the twenty-digit port below; a non-digit port such as
the colon-abc example fails the whole grammar and therefore yields the
invalid-address error, not the port-conversion one. -/
theorem c3_errors :
    (∀ s : String, parseAddress s = Except.error "invalid address" ↔
      matchAddress s.data = none) ∧
    (∀ s : String,
      parseAddress s = Except.error "converting port string to int" ↔
      ∃ m, matchAddress s.data = some m ∧ m.port ≠ [] ∧
        atoi m.port = none) ∧
    parseAddress "localhost:99999999999999999999" =
      Except.error "converting port string to int" ∧
    parseAddress "http://host:abc" = Except.error "invalid address" := by
  refine ⟨?_, ?_, rfl, rfl⟩
  · intro s
    cases hm : matchAddress s.data with
    | none => simp [parseAddress, hm]
    | some m =>
        simp only [parseAddress, hm]
        constructor
        · intro h
          split at h
          · injection h with h2
            exact absurd h2 (by decide)
          · exact Except.noConfusion h
        · intro h
          exact Option.noConfusion h
  · intro s
    cases hm : matchAddress s.data with
    | none =>
        simp only [parseAddress, hm]
        constructor
        · intro h
          injection h with h2
          exact absurd h2 (by decide)
        · rintro ⟨m2, hm2, _, _⟩
          exact Option.noConfusion hm2
    | some m =>
        simp only [parseAddress, hm]
        constructor
        · intro h
          split at h
          · rename_i hq
            by_cases hp0 : m.port = []
            · rw [hp0] at hq
              simp at hq
            · have he : m.port.isEmpty = false := by
                simp [List.isEmpty_iff, hp0]
              rw [he] at hq
              simp at hq
              exact ⟨m, rfl, hp0, hq⟩
          · exact Except.noConfusion h
        · rintro ⟨m2, hm2, hne, hatoi⟩
          injection hm2 with hmm
          subst hmm
          have he : m.port.isEmpty = false := by
            simp [List.isEmpty_iff, hne]
          simp [he, hatoi]

/-- Claim C9: a matched port of decimal digits above 65535 but within the
64-bit integer range parses successfully with the value reduced modulo
2 ^ 16, and decoding a wire envelope reduces its 32-bit port field modulo
2 ^ 16 the same way. -/
theorem c9_port_narrowing :
    (∀ (s : String) (m : AddressMatch), matchAddress s.data = some m →
      m.port ≠ [] → (∀ c ∈ m.port, isDigitChar c = true) →
      65535 < digitsToNat m.port → digitsToNat m.port ≤ maxInt →
      ∃ u, parseAddress s = Except.ok u ∧
        u.port = digitsToNat m.port % 65536) ∧
    (∀ i : InternalURI, (decodeURI (some i)).port = i.Port % 65536) ∧
    parseAddress "localhost:70000" =
      Except.ok { scheme := "http", host := "localhost",
                  port := 70000 % 65536 } := by
  refine ⟨?_, fun i => rfl, rfl⟩
  intro s m hm hne hdig _hgt hle
  have he : m.port.isEmpty = false := by simp [List.isEmpty_iff, hne]
  have ha : atoi m.port = some (digitsToNat m.port) := by
    simp [atoi, he, List.all_eq_true.mpr hdig, hle]
  refine ⟨{ scheme := if m.scheme.isEmpty then "http"
              else String.mk m.scheme,
            host := if m.host.isEmpty then "localhost"
              else String.mk m.host,
            port := digitsToNat m.port % 65536 }, ?_, rfl⟩
  simp [parseAddress, hm, he, ha]

/-- Witness for C9 at the port 70000, narrowed to 4464. -/
theorem c9_port_narrowing_witness :
    ∃ u, parseAddress "localhost:70000" = Except.ok u ∧
      u.port = digitsToNat "70000".data % 65536 :=
  c9_port_narrowing.1 "localhost:70000"
    ⟨[], "localhost".data, "70000".data⟩ rfl (by decide) (by decide)
    (by decide) (by decide)

end Pilosa
